import Mathlib

/-!
Verification of pykbart's core (`src/kbart/kbart.py`): the `Kbart` record,
the `Holdings` formatter and the `Embargo` decoder, shallowly embedded.

Python data is modelled as follows: Python lists of strings become
`List String`; the `OrderedDict` becomes an association list
`List (String × String)` built with Python-dict insertion semantics
(updating an existing key keeps its position, a new key is appended);
raised exceptions become `Except KbartError`; `None` becomes `Option`.
The modules `kbart/constants.py` and `kbart/exceptions.py` are imported by
`kbart/kbart.py` but are not part of the sources at hand, so their content
is modelled from the spec (each such definition carries a
`Modelled from the spec:` doc comment).
-/

namespace Pykbart

/-- The exception classes of `kbart/exceptions.py`.
Modelled from the spec: the module itself is not among the sources;
the spec's §7 lists exactly these four conditions, and `kbart/kbart.py`
imports exactly these four names. -/
inductive KbartError where
  | InvalidRP
  | ProviderNotFound
  | UnknownEmbargoFormat
  | IncompleteDateInformation
deriving DecidableEq, Repr

/-- Modelled from the spec: `RP1_FIELDS` of `kbart/constants.py` is not among
the sources. The spec (§3) fixes an ordered sequence of 15 unique names ending
in a coverage-notes field; the holdings slice (positions 3..8) must hold
first/last date-vol-issue right after the two identifier fields, and
`embargo_info` and `publication_title` must be members (used by the record's
named accessors). Names follow the KBART RP1 standard the spec describes. -/
def RP1_FIELDS : List String :=
  ["publication_title", "print_identifier", "online_identifier",
   "date_first_issue_online", "num_first_vol_online", "num_first_issue_online",
   "date_last_issue_online", "num_last_vol_online", "num_last_issue_online",
   "title_url", "first_author", "title_id", "embargo_info", "coverage_depth",
   "coverage_notes"]

/-- Modelled from the spec: `RP2_FIELDS` of `kbart/constants.py` is not among
the sources. The spec (§3) fixes an ordered sequence of 11 additional unique
names appended for RP version 2; names follow the KBART RP2 standard the spec
describes (they include `publisher_name`, used by the record's publisher
accessor). -/
def RP2_FIELDS : List String :=
  ["notes", "publisher_name", "publication_type",
   "date_monograph_published_print", "date_monograph_published_online",
   "monograph_volume", "monograph_edition", "first_editor",
   "parent_publication_title_id", "preceding_publication_title_id",
   "access_type"]

/-- Modelled from the spec: `PROVIDER_FIELDS` of `kbart/constants.py` is not
among the sources. The spec (§3) describes a mapping from provider-name
string to an ordered sequence of extra field names; the repository's tests
fix one known provider, `oclc`, whose last extra field is `ACTION`. -/
def PROVIDER_FIELDS : List (String × List String) :=
  [("oclc",
    ["location", "title_notes", "staff_notes", "vendor_id",
     "oclc_collection_name", "oclc_collection_id", "oclc_entry_id",
     "oclc_linkscheme", "oclc_number", "ACTION"])]

/-- Association-list lookup, the model of Python `d[k]` / `k in d`
(first—and for the dicts we build, only—binding of the key wins). -/
def alist_lookup {α : Type} (l : List (String × α)) (k : String) : Option α :=
  (l.find? (fun p => p.1 == k)).map Prod.snd

/-- Python dict assignment `d[k] = v` on an ordered dict: an existing key is
updated in place (its position is kept), a missing key is appended. -/
def odInsert (d : List (String × String)) (k v : String) :
    List (String × String) :=
  if d.any (fun p => p.1 == k) then
    d.map (fun p => if p.1 == k then (p.1, v) else p)
  else
    d ++ [(k, v)]

/-- `OrderedDict(pairs)`: insert the pairs left to right into an empty dict. -/
def odOfPairs (ps : List (String × String)) : List (String × String) :=
  ps.foldl (fun d p => odInsert d p.1 p.2) []

/-- `six.moves.zip_longest(xs, ys, fillvalue)`: pair positionally, padding the
shorter sequence with `fill` (it pads in BOTH directions, unlike `zip`). -/
def zip_longest (xs ys : List String) (fill : String) :
    List (String × String) :=
  match xs, ys with
  | [], ys => ys.map (fun y => (fill, y))
  | x :: xs, [] => (x, fill) :: zip_longest xs [] fill
  | x :: xs, y :: ys => (x, y) :: zip_longest xs ys fill

/-- `Kbart._create_fields` (kbart/kbart.py:140-153): start from RP1, extend
with RP2 when `rp == 2`, raise `InvalidRP` when `rp` is neither 2 nor 1,
then extend with the provider's fields, raising `ProviderNotFound` when the
provider is not a key of `PROVIDER_FIELDS`. -/
def create_fields (provider : Option String) (rp : Int) :
    Except KbartError (List String) := do
  let fields ←
    if rp = 2 then pure (RP1_FIELDS ++ RP2_FIELDS)
    else if ¬ rp = 1 then Except.error KbartError.InvalidRP
    else pure RP1_FIELDS
  match provider with
  | none => pure fields
  | some p =>
    match alist_lookup PROVIDER_FIELDS p with
    | some pf => pure (fields ++ pf)
    | none => Except.error KbartError.ProviderNotFound

/-- The `Kbart` record after a successful `__init__`. -/
structure Kbart where
  provider : Option String
  rp : Int
  data : List String
  fields : List String
  kbart_data : List (String × String)
deriving DecidableEq, Repr

/-- `Kbart.__init__` (kbart/kbart.py:22-59). A falsy (`None`/empty) `data`
becomes `[]`; a truthy `fields` overrides `_create_fields`; the mapping is
`OrderedDict(zip_longest(fields, data, fillvalue=''))`. Python's `None` and
`[]` are both falsy, so both defaults are modelled by `[]`. -/
def Kbart.init (data : List String := []) (provider : Option String := none)
    (rp : Int := 2) (fields : List String := []) : Except KbartError Kbart := do
  let fieldList ←
    if ¬ fields = [] then pure fields
    else create_fields provider rp
  pure { provider := provider, rp := rp, data := data, fields := fieldList,
         kbart_data := odOfPairs (zip_longest fieldList data "") }

/-- `Kbart.__getitem__` (kbart/kbart.py:61-62): `none` models `KeyError`. -/
def Kbart.getItem (k : Kbart) (key : String) : Option String :=
  alist_lookup k.kbart_data key

/-- `Kbart.__setitem__` (kbart/kbart.py:64-65): a plain dict assignment. -/
def Kbart.setItem (k : Kbart) (key value : String) : Kbart :=
  { k with kbart_data := odInsert k.kbart_data key value }

/-- `Kbart.__len__` (kbart/kbart.py:83-84). -/
def Kbart.len (k : Kbart) : Nat := k.kbart_data.length

/-- `Kbart.get_fields` (kbart/kbart.py:86-92): with no arguments, all values
in order; otherwise the values of the requested keys, silently skipping any
key not present. -/
def Kbart.get_fields (k : Kbart) (args : List String := []) : List String :=
  if args = [] then k.kbart_data.map Prod.snd
  else args.filterMap (fun x => alist_lookup k.kbart_data x)

/-- `Kbart.holdings` (kbart/kbart.py:94-96): `values()[3:9]`. -/
def Kbart.holdings (k : Kbart) : List String :=
  ((k.kbart_data.map Prod.snd).drop 3).take 6

/-- `_format_strings` (kbart/kbart.py:237-241). -/
def format_strings (the_string : String) (pre : String := "")
    (suf : String := "") : String :=
  if ¬ the_string = "" then pre ++ the_string ++ suf else ""

namespace Holdings

/-- `Holdings._create_holdings_string` (kbart/kbart.py:194-207). The Python
version mutates positions 1 and 2 of its argument in place and then joins the
non-empty entries; callers always pass it a fresh 3-element slice. The pure
value returned here is the joined string; the in-place effect is modelled
separately by `create_holdings_string_heap`. -/
def create_holdings_string (holdings : List String) : String :=
  let h1 := holdings.set 1 (format_strings (holdings.getD 1 "") "Vol: ")
  let h2 := h1.set 2 (format_strings (h1.getD 2 "") "Issue: ")
  String.intercalate ", " (h2.filter (fun x => ¬ x = ""))

/-- `Holdings.pretty_print` (kbart/kbart.py:157-167): on an all-falsy list
return the sentinel, otherwise format the two 3-element slices and substitute
`present` for an empty last slice. -/
def pretty_print (holdings : List String) : String :=
  if holdings.any (fun x => ¬ x = "") then
    let first := holdings.take 3
    let last := holdings.drop 3
    let first_holding := create_holdings_string first
    let last_holding := create_holdings_string last
    let last_holding := if last_holding = "" then "present" else last_holding
    first_holding ++ " - " ++ last_holding
  else
    "No holdings present"

/-- Surrounding-whitespace strip on the character list, the model of the
whitespace tolerance of Python `int(str)`. -/
def pyStrip (cs : List Char) : List Char :=
  ((cs.dropWhile Char.isWhitespace).reverse.dropWhile Char.isWhitespace).reverse

/-- Python `int(s)` as used by `length_of_coverage`: strip surrounding
whitespace, accept an optional sign followed by one or more digits, and fail
(`ValueError`, modelled as `none`) on anything else. -/
def pyInt (s : String) : Option Int :=
  let val : List Char → Nat := fun cs =>
    cs.foldl (fun n c => 10 * n + (c.toNat - 48)) 0
  match pyStrip s.data with
  | [] => none
  | '+' :: rest =>
    if rest ≠ [] ∧ rest.all Char.isDigit then some (val rest) else none
  | '-' :: rest =>
    if rest ≠ [] ∧ rest.all Char.isDigit then some (-(val rest : Int))
    else none
  | cs => if cs.all Char.isDigit then some (val cs) else none

/-- `Holdings.length_of_coverage` (kbart/kbart.py:169-192). The call
`datetime.datetime.now().year` is modelled by the explicit parameter
`this_year`. The first attempt `int(last) - int(first)` raises as soon as
either parse fails; the fallback retries with `this_year` as the end year and
raises `IncompleteDateInformation` when the start year still fails to parse. -/
def length_of_coverage (this_year : Int) (holdings : List String) :
    Except KbartError Int :=
  let first_year := holdings.getD 0 ""
  let last_year := holdings.getD 3 ""
  match pyInt last_year, pyInt first_year with
  | some l, some f => Except.ok (l - f)
  | _, _ =>
    match pyInt first_year with
    | some f => Except.ok (this_year - f)
    | none => Except.error KbartError.IncompleteDateInformation

/-- The in-place effect of `Holdings.pretty_print` made explicit: Python
lists are heap objects, so the store is a list of lists indexed by location.
`_create_holdings_string` mutates positions 1 and 2 of the list at `loc`
(`holdings[1] = ...; holdings[2] = ...`) and returns the joined string. -/
def create_holdings_string_heap (store : List (List String)) (loc : Nat) :
    List (List String) × String :=
  let h := store.getD loc []
  let h1 := h.set 1 (format_strings (h.getD 1 "") "Vol: ")
  let h2 := h1.set 2 (format_strings (h1.getD 2 "") "Issue: ")
  (store.set loc h2, String.intercalate ", " (h2.filter (fun x => ¬ x = "")))

/-- `Holdings.pretty_print` at the heap level: the slices `holdings[:3]` and
`holdings[3:]` allocate fresh lists (at fresh locations, here the two
locations just past the end of the store), and `_create_holdings_string` is
applied to those fresh locations, never to the caller's list at `loc`. -/
def pretty_print_heap (store : List (List String)) (loc : Nat) :
    List (List String) × String :=
  let h := store.getD loc []
  if h.any (fun x => ¬ x = "") then
    let firstLoc := store.length
    let lastLoc := store.length + 1
    let store1 := store ++ [h.take 3, h.drop 3]
    let r1 := create_holdings_string_heap store1 firstLoc
    let r2 := create_holdings_string_heap r1.1 lastLoc
    let last_holding := if r2.2 = "" then "present" else r2.2
    (r2.1, r1.2 ++ " - " ++ last_holding)
  else
    (store, "No holdings present")

/-- Spec-side description of step 3 of the holdings algorithm (§4.3): for a
triple, the comma-join of its non-empty parts in order — the date verbatim,
`"Vol: <vol>"` if the vol is non-empty, `"Issue: <issue>"` if the issue is
non-empty. Used to state C4 against `pretty_print`. -/
def tripleString (date vol issue : String) : String :=
  String.intercalate ", "
    (([date,
       if vol = "" then "" else "Vol: " ++ vol,
       if issue = "" then "" else "Issue: " ++ issue]).filter
      (fun x => ¬ x = ""))

end Holdings

namespace Embargo

/-- The compiled regex `(?P<type>R|P)(?P<length>\d+)(?P<unit>D|M|Y)` applied
with `re.match`, i.e. anchored at the start only: a first character in
`{R, P}`, then a maximal nonempty digit run, then a character in `{D, M, Y}`;
anything after the unit character is ignored. Returns the three named groups.
(`\d+` is greedy; backtracking never helps here because the unit alternatives
are not digits, so the maximal-run reading is exact.) -/
def pattern_match (s : String) : Option (Char × String × Char) :=
  match s.data with
  | [] => none
  | t :: rest =>
    if t = 'R' ∨ t = 'P' then
      match rest.dropWhile Char.isDigit with
      | [] => none
      | u :: _ =>
        if rest.takeWhile Char.isDigit = [] then none
        else if u = 'D' ∨ u = 'M' ∨ u = 'Y' then
          some (t, String.mk (rest.takeWhile Char.isDigit), u)
        else none
    else none

/-- Modelled from the spec: `EMBARGO_CODES_TO_STRINGS` of
`kbart/constants.py` is not among the sources. The spec (§4.4) fixes a
code→string table giving the type phrases (R → "within the last",
P → "up to") and the unit phrases (D/M/Y → "day(s)"/"month(s)"/"year(s)"),
rendered as `"<type phrase> <length> <unit phrase> ago"`; the repository's
tests fix the exact capitalised result `"Up to 1 month(s) ago"` for `P1M`. -/
def EMBARGO_CODES_TO_STRINGS : List (Char × String) :=
  [('R', "Within the last"), ('P', "Up to"),
   ('D', "day(s)"), ('M', "month(s)"), ('Y', "year(s)")]

/-- Lookup in the code→string table (Python `EMBARGO_CODES_TO_STRINGS[c]`,
`none` modelling `KeyError`). -/
def codeLookup (c : Char) : Option String :=
  (EMBARGO_CODES_TO_STRINGS.find? (fun p => p.1 == c)).map Prod.snd

/-- `Embargo._embargo_as_dict` (kbart/kbart.py:224-234): a falsy (empty)
string yields the empty dict; otherwise a failed `re.match` returns `None`,
whose `.groupdict()` raises `AttributeError`, re-raised as
`UnknownEmbargoFormat`; a successful match yields the group dict,
modelled as the group triple. -/
def embargo_as_dict (embargo : String) :
    Except KbartError (Option (Char × String × Char)) :=
  if ¬ embargo = "" then
    match pattern_match embargo with
    | none => Except.error KbartError.UnknownEmbargoFormat
    | some g => Except.ok (some g)
  else
    Except.ok none

/-- `Embargo.pretty_print` (kbart/kbart.py:213-222): render
`"<type phrase> <length> <unit phrase> ago"` from the table; any `KeyError`
(the empty dict from empty input, or a group character missing from the
table) falls back to the empty string. -/
def pretty_print (embargo : String) : Except KbartError String := do
  let parts ← embargo_as_dict embargo
  match parts with
  | none => pure ""
  | some (t, len, u) =>
    match codeLookup t, codeLookup u with
    | some tp, some up => pure (tp ++ " " ++ len ++ " " ++ up ++ " ago")
    | _, _ => pure ""

/-- Modelled from the spec: `check_embargo_format` exists only in the later
`pykbart` variant, which is not among the sources (only its tests are). Per
the spec (§4.4) it returns true if the string matches the pattern, false
otherwise, without raising. -/
def check_embargo_format (embargo : String) : Bool :=
  (pattern_match embargo).isSome

/-- Spec-side description of the embargo pattern (§4.4): the string matches
`(R|P)(\d+)(D|M|Y)` anchored at the start — it begins with a type character
in `{R, P}`, followed by a nonempty run of digits, followed by a unit
character in `{D, M, Y}`; anything may follow. Used to state C8 against
`check_embargo_format`. -/
def matchesEmbargoPattern (s : String) : Prop :=
  ∃ t ds u rest, s.data = t :: (ds ++ u :: rest) ∧ (t = 'R' ∨ t = 'P') ∧
    ds ≠ [] ∧ (∀ c ∈ ds, c.isDigit = true) ∧ (u = 'D' ∨ u = 'M' ∨ u = 'Y')

end Embargo

/-! Helper lemmas about the ordered-dict model and `zip_longest`. -/

theorem zip_longest_map_fst (fields data : List String) (fill : String)
    (h : data.length ≤ fields.length) :
    (zip_longest fields data fill).map Prod.fst = fields := by
  induction fields generalizing data with
  | nil =>
    cases data with
    | nil => simp [zip_longest]
    | cons y ys => simp at h
  | cons x xs ih =>
    cases data with
    | nil =>
      have := ih [] (by simp)
      simp [zip_longest, this]
    | cons y ys =>
      have := ih ys (by simpa using h)
      simp [zip_longest, this]

theorem zip_longest_map_snd (fields data : List String) (fill : String)
    (h : data.length ≤ fields.length) :
    (zip_longest fields data fill).map Prod.snd
      = data ++ List.replicate (fields.length - data.length) fill := by
  induction fields generalizing data with
  | nil =>
    cases data with
    | nil => simp [zip_longest]
    | cons y ys => simp at h
  | cons x xs ih =>
    cases data with
    | nil =>
      have := ih [] (by simp)
      simp [zip_longest, this, List.replicate_succ]
    | cons y ys =>
      have := ih ys (by simpa using h)
      simp [zip_longest, this]

theorem odMem_iff (d : List (String × String)) (k : String) :
    (d.any (fun p => p.1 == k)) = true ↔ k ∈ d.map Prod.fst := by
  simp [List.any_eq_true]

theorem odInsert_of_not_mem (d : List (String × String)) (k v : String)
    (h : k ∉ d.map Prod.fst) : odInsert d k v = d ++ [(k, v)] := by
  unfold odInsert
  rw [if_neg (fun hh => h ((odMem_iff d k).1 hh))]

theorem odOfPairs_go (ps : List (String × String)) :
    ∀ acc, ((acc ++ ps).map Prod.fst).Nodup →
      ps.foldl (fun d p => odInsert d p.1 p.2) acc = acc ++ ps := by
  induction ps with
  | nil => intro acc _; simp
  | cons p ps ih =>
    intro acc hacc
    have hnd : (acc.map Prod.fst ++ p.1 :: ps.map Prod.fst).Nodup := by
      simpa using hacc
    have hk : p.1 ∉ acc.map Prod.fst := by
      intro hmem
      have hdisj := (List.nodup_append.mp hnd).2.2
      exact hdisj hmem (List.mem_cons_self _ _)
    have step : odInsert acc p.1 p.2 = acc ++ [p] := by
      rw [odInsert_of_not_mem _ _ _ hk]
    have hacc' : (((acc ++ [p]) ++ ps).map Prod.fst).Nodup := by
      simpa [List.append_assoc] using hacc
    have hres := ih (acc ++ [p]) hacc'
    simp only [List.foldl_cons, step, hres, List.append_assoc,
      List.singleton_append]

theorem odOfPairs_eq_self (ps : List (String × String))
    (h : (ps.map Prod.fst).Nodup) : odOfPairs ps = ps := by
  simpa [odOfPairs] using odOfPairs_go ps [] (by simpa using h)

theorem alist_lookup_odInsert_self (d : List (String × String)) (k v : String) :
    alist_lookup (odInsert d k v) k = some v := by
  unfold odInsert alist_lookup
  by_cases h : (d.any (fun p => p.1 == k)) = true
  · rw [if_pos h]
    rw [List.find?_map]
    have hpred : ((fun p : String × String => p.1 == k) ∘
        (fun p : String × String => if p.1 == k then (p.1, v) else p))
        = (fun p : String × String => p.1 == k) := by
      funext p
      by_cases hp : p.1 = k <;> simp [hp]
    rw [hpred]
    obtain ⟨p0, hp0mem, hp0⟩ := List.any_eq_true.mp h
    have hsome : (d.find? (fun p => p.1 == k)).isSome :=
      List.find?_isSome.mpr ⟨p0, hp0mem, hp0⟩
    obtain ⟨q, hq⟩ := Option.isSome_iff_exists.mp hsome
    have hq1 := List.find?_some hq
    rw [hq]
    have hq1' : q.1 = k := by simpa using hq1
    simp [hq1']
  · rw [if_neg h]
    have hnone : d.find? (fun p => p.1 == k) = none := by
      rw [List.find?_eq_none]
      intro x hx hxk
      exact h (List.any_eq_true.mpr ⟨x, hx, hxk⟩)
    simp [List.find?_append, hnone]

theorem odInsert_map_fst_of_mem (d : List (String × String)) (k v : String)
    (h : k ∈ d.map Prod.fst) :
    (odInsert d k v).map Prod.fst = d.map Prod.fst := by
  unfold odInsert
  rw [if_pos ((odMem_iff d k).2 h), List.map_map]
  congr 1
  funext p
  by_cases hp : p.1 = k <;> simp [hp]

theorem odInsert_map_fst_of_not_mem (d : List (String × String)) (k v : String)
    (h : k ∉ d.map Prod.fst) :
    (odInsert d k v).map Prod.fst = d.map Prod.fst ++ [k] := by
  rw [odInsert_of_not_mem _ _ _ h]
  simp

/-- Unfolding of a successful `Kbart.__init__`: the stored `data` is the
input and the mapping is the ordered dict of the zip of the (computed or
supplied) field list with the data. -/
theorem Kbart.init_ok (data : List String) (provider : Option String)
    (rp : Int) (fields : List String) (r : Kbart)
    (h : Kbart.init data provider rp fields = Except.ok r) :
    r.data = data ∧
    r.kbart_data = odOfPairs (zip_longest r.fields data "") := by
  unfold Kbart.init at h
  by_cases hf : fields = []
  · simp only [hf, not_true_eq_false, if_false, if_neg] at h
    cases hc : create_fields provider rp with
    | error e =>
      rw [hc] at h
      simp [Except.bind, Bind.bind] at h
    | ok fl =>
      rw [hc] at h
      simp only [Bind.bind, Except.bind, Pure.pure, Except.pure,
        Except.ok.injEq] at h
      subst h
      exact ⟨rfl, rfl⟩
  · simp only [hf, not_false_eq_true, if_true, if_pos, Bind.bind, Except.bind,
      Pure.pure, Except.pure, Except.ok.injEq] at h
    subst h
    exact ⟨rfl, rfl⟩

/-- `Kbart.__init__` with a truthy explicit field list never consults the
schema tables and succeeds outright. -/
theorem Kbart.init_explicit (data : List String) (provider : Option String)
    (rp : Int) (fields : List String) (h : fields ≠ []) :
    Kbart.init data provider rp fields =
      Except.ok ⟨provider, rp, data, fields,
        odOfPairs (zip_longest fields data "")⟩ := by
  unfold Kbart.init
  simp only [h, not_false_eq_true, if_true, if_pos, Bind.bind, Except.bind,
    Pure.pure, Except.pure]

/-! Helper lemmas about the embargo matcher. -/

theorem takeWhile_dropWhile_all_append {p : Char → Bool} (l : List Char)
    (u : Char) (r : List Char) (hl : ∀ c ∈ l, p c = true) (hu : p u = false) :
    (l ++ u :: r).takeWhile p = l ∧ (l ++ u :: r).dropWhile p = u :: r := by
  induction l with
  | nil => simp [List.takeWhile, List.dropWhile, hu]
  | cons c cs ih =>
    have hc : p c = true := hl c (List.mem_cons_self _ _)
    have hih := ih (fun x hx => hl x (List.mem_cons_of_mem _ hx))
    simp [List.takeWhile_cons, List.dropWhile_cons, hc, hih.1, hih.2]

/-- Completeness of the matcher against the spec's pattern: any string that
begins with `(R|P)(\d+)(D|M|Y)` matches, with exactly those three groups
(the digit group being the whole digit run). -/
theorem pattern_match_eq_some (s : String) (t : Char) (ds : List Char)
    (u : Char) (rest : List Char) (hs : s.data = t :: (ds ++ u :: rest))
    (ht : t = 'R' ∨ t = 'P') (hds : ds ≠ [])
    (hdig : ∀ c ∈ ds, c.isDigit = true) (hu : u = 'D' ∨ u = 'M' ∨ u = 'Y') :
    Embargo.pattern_match s = some (t, String.mk ds, u) := by
  have hund : u.isDigit = false := by
    rcases hu with h | h | h <;> subst h <;> decide
  obtain ⟨htw, hdw⟩ := takeWhile_dropWhile_all_append ds u rest hdig hund
  unfold Embargo.pattern_match
  rw [hs]
  simp only [htw, hdw, if_pos ht, if_neg hds, if_pos hu]

/-- Soundness of the matcher: a successful match decomposes the string as
the spec's pattern followed by an arbitrary remainder. -/
theorem pattern_match_some_spec (s : String) (t : Char) (n : String)
    (u : Char) (h : Embargo.pattern_match s = some (t, n, u)) :
    ∃ rest, s.data = t :: (n.data ++ u :: rest) ∧ (t = 'R' ∨ t = 'P') ∧
      n.data ≠ [] ∧ (∀ c ∈ n.data, c.isDigit = true) ∧
      (u = 'D' ∨ u = 'M' ∨ u = 'Y') := by
  unfold Embargo.pattern_match at h
  split at h
  · simp at h
  · rename_i t' rest' hs
    split at h
    · rename_i ht
      split at h
      · simp at h
      · rename_i u' tail hdw
        split at h
        · simp at h
        · rename_i hds
          split at h
          · rename_i hU
            rw [Option.some.injEq, Prod.mk.injEq, Prod.mk.injEq] at h
            obtain ⟨h1, h2, h3⟩ := h
            refine ⟨tail, ?_, ?_, ?_, ?_, ?_⟩
            · rw [hs, ← h1, ← h2]
              have hmk : (String.mk (rest'.takeWhile Char.isDigit)).data
                  = rest'.takeWhile Char.isDigit := rfl
              rw [hmk, ← h3, ← hdw, List.takeWhile_append_dropWhile]
            · rw [← h1]; exact ht
            · rw [← h2]
              simpa using hds
            · rw [← h2]
              intro c hc
              exact List.mem_takeWhile_imp hc
            · rw [← h3]; exact hU
          · simp at h
    · simp at h

/-- On a successfully matched string, `pretty_print` renders the phrase from
the two table lookups; the type and unit characters produced by the matcher
are always table keys, so the defensive empty-string path is not taken. -/
theorem pretty_print_of_match (s : String) (t : Char) (n : String) (u : Char)
    (hne : ¬ s = "") (h : Embargo.pattern_match s = some (t, n, u))
    (ht : t = 'R' ∨ t = 'P') (hu : u = 'D' ∨ u = 'M' ∨ u = 'Y') :
    Embargo.pretty_print s = Except.ok
      ((if t = 'R' then "Within the last" else "Up to") ++ " " ++ n ++ " " ++
       (if u = 'D' then "day(s)" else if u = 'M' then "month(s)"
        else "year(s)") ++ " ago") := by
  unfold Embargo.pretty_print Embargo.embargo_as_dict
  rw [if_pos hne, h]
  simp only [Bind.bind, Except.bind, Pure.pure, Except.pure]
  rcases ht with ht | ht <;> subst ht <;>
    rcases hu with hu | hu | hu <;> subst hu <;> rfl

/-- `List.getD` ignores a `set` at a different index. -/
theorem getD_set_ne {α : Type} (l : List α) (i j : Nat) (x d : α)
    (h : i ≠ j) : (l.set i x).getD j d = l.getD j d := by
  simp [List.getD_eq_getElem?_getD, List.getElem?_set_ne h]

/-- The holdings-string of a 3-element list is the spec's triple string. -/
theorem create_holdings_string_triple (x y z : String) :
    Holdings.create_holdings_string [x, y, z] = Holdings.tripleString x y z := by
  simp only [Holdings.create_holdings_string, Holdings.tripleString,
    format_strings, List.getD, List.set]
  by_cases hy : y = "" <;> by_cases hz : z = "" <;>
    simp [hy, hz, List.getD]

end Pykbart

deriving instance DecidableEq for Except

namespace Pykbart

/-- C1 counterexample: constructing with more values than fields does NOT
silently drop the extra values — `zip_longest` pads the *fields* with the
empty string, so with fields `["a"]` and values `["x", "y"]` the mapping
gains an extra key `""` (bound to the extra value) and `Length()` is 2,
not the schema field count 1. -/
theorem C1_counterexample :
    Kbart.init ["x", "y"] none 2 ["a"]
      = Except.ok ⟨none, 2, ["x", "y"], ["a"], [("a", "x"), ("", "y")]⟩ ∧
    ¬ (Kbart.init ["x", "y"] none 2 ["a"]).map
        (fun r => r.kbart_data.map Prod.fst) = Except.ok ["a"] ∧
    ¬ (Kbart.init ["x", "y"] none 2 ["a"]).map (fun r => r.len)
        = Except.ok 1 := by
  refine ⟨by decide, by decide⟩

/-- C1 (amended): for every successful Record construction whose field list
is duplicate-free and has at least as many fields as values were supplied,
the ordered mapping's key sequence is exactly the field sequence in schema
order, the missing trailing fields are bound to the empty string, and
`Length()` equals the number of schema fields. (When more values than
fields are supplied, the code instead pads the *field* side: the mapping
gains one extra key `""` holding the last extra value.) -/
theorem C1_record_mapping (data : List String) (provider : Option String)
    (rp : Int) (fields : List String) (r : Kbart)
    (hok : Kbart.init data provider rp fields = Except.ok r)
    (hnd : r.fields.Nodup) (hlen : data.length ≤ r.fields.length) :
    r.kbart_data.map Prod.fst = r.fields ∧
    r.kbart_data.map Prod.snd
      = data ++ List.replicate (r.fields.length - data.length) "" ∧
    r.len = r.fields.length := by
  obtain ⟨hdata, hkd⟩ := Kbart.init_ok data provider rp fields r hok
  have hfst := zip_longest_map_fst r.fields data "" hlen
  have hnd' : ((zip_longest r.fields data "").map Prod.fst).Nodup := by
    rw [hfst]; exact hnd
  have hod : odOfPairs (zip_longest r.fields data "")
      = zip_longest r.fields data "" := odOfPairs_eq_self _ hnd'
  refine ⟨?_, ?_, ?_⟩
  · rw [hkd, hod, hfst]
  · rw [hkd, hod]
    exact zip_longest_map_snd _ _ _ hlen
  · show r.kbart_data.length = r.fields.length
    rw [hkd, hod]
    have hlen' := congrArg List.length hfst
    simpa using hlen'

/-- C1 witness: the amended theorem at fields `["a", "b"]`, values `["x"]`. -/
theorem C1_record_mapping_witness :
    (⟨none, 2, ["x"], ["a", "b"], [("a", "x"), ("b", "")]⟩ :
        Kbart).kbart_data.map Prod.fst
      = (⟨none, 2, ["x"], ["a", "b"], [("a", "x"), ("b", "")]⟩ : Kbart).fields ∧
    (⟨none, 2, ["x"], ["a", "b"], [("a", "x"), ("b", "")]⟩ :
        Kbart).kbart_data.map Prod.snd
      = ["x"] ++ List.replicate
          ((⟨none, 2, ["x"], ["a", "b"], [("a", "x"), ("b", "")]⟩ :
            Kbart).fields.length - ["x"].length) "" ∧
    (⟨none, 2, ["x"], ["a", "b"], [("a", "x"), ("b", "")]⟩ : Kbart).len
      = (⟨none, 2, ["x"], ["a", "b"], [("a", "x"), ("b", "")]⟩ :
          Kbart).fields.length :=
  C1_record_mapping ["x"] none 2 ["a", "b"] _ (by decide) (by decide) (by decide)

/-- C2 counterexample: `__setitem__` is a plain dict assignment — setting the
unknown field name `"b"` on a record with field set `["a"]` raises nothing
and GROWS the mapping (the claim says it always raises the lookup error and
leaves the mapping unchanged). -/
theorem C2_counterexample :
    (Kbart.init ["x"] none 2 ["a"]).map
        (fun r => (r.setItem "b" "v").kbart_data)
      = Except.ok [("a", "x"), ("b", "v")] ∧
    ¬ (Kbart.init ["x"] none 2 ["a"]).map
        (fun r => (r.setItem "b" "v").kbart_data)
      = Except.ok [("a", "x")] :=
  ⟨by decide, by decide⟩

/-- C2 (amended): Set never raises — Set then Get round-trips the new value
for EVERY field name; setting a present name keeps the field set unchanged,
while setting an unknown name grows the field set by appending that name
(rather than raising a lookup error). -/
theorem C2_set_get (k : Kbart) (name v : String) :
    (k.setItem name v).getItem name = some v ∧
    (name ∈ k.kbart_data.map Prod.fst →
      (k.setItem name v).kbart_data.map Prod.fst
        = k.kbart_data.map Prod.fst) ∧
    (name ∉ k.kbart_data.map Prod.fst →
      (k.setItem name v).kbart_data.map Prod.fst
        = k.kbart_data.map Prod.fst ++ [name]) :=
  ⟨alist_lookup_odInsert_self _ _ _,
   fun h => odInsert_map_fst_of_mem _ _ _ h,
   fun h => odInsert_map_fst_of_not_mem _ _ _ h⟩

/-- C2 witness: the amended theorem at a concrete one-field record and the
unknown name `"b"`. -/
theorem C2_set_get_witness :
    ((⟨none, 2, [], ["a"], [("a", "")]⟩ : Kbart).setItem "b" "v").getItem "b"
      = some "v" ∧
    ((⟨none, 2, [], ["a"], [("a", "")]⟩ :
        Kbart).setItem "b" "v").kbart_data.map Prod.fst = ["a", "b"] :=
  ⟨(C2_set_get ⟨none, 2, [], ["a"], [("a", "")]⟩ "b" "v").1, by
    have hgrow := (C2_set_get (⟨none, 2, [], ["a"], [("a", "")]⟩ : Kbart)
      "b" "v").2.2 (by decide)
    simpa using hgrow⟩

/-- C3: embargo pretty-print returns the empty string on empty input without
raising; raises `UnknownEmbargoFormat` on a non-empty input that does not
match `(R|P)(\d+)(D|M|Y)` anchored at the start; and on a matching input
returns `"<type phrase> <length> <unit phrase> ago"` — in particular
`pretty_print "P1M" = "Up to 1 month(s) ago"`. -/
theorem C3_embargo_pretty_print :
    Embargo.pretty_print "" = Except.ok "" ∧
    (∀ s : String, ¬ s = "" → ¬ Embargo.matchesEmbargoPattern s →
      Embargo.pretty_print s = Except.error KbartError.UnknownEmbargoFormat) ∧
    (∀ (s : String) (t : Char) (ds : List Char) (u : Char) (rest : List Char),
      s.data = t :: (ds ++ u :: rest) → (t = 'R' ∨ t = 'P') → ds ≠ [] →
      (∀ c ∈ ds, c.isDigit = true) → (u = 'D' ∨ u = 'M' ∨ u = 'Y') →
      Embargo.pretty_print s = Except.ok
        ((if t = 'R' then "Within the last" else "Up to") ++ " " ++
         String.mk ds ++ " " ++
         (if u = 'D' then "day(s)" else if u = 'M' then "month(s)"
          else "year(s)") ++ " ago")) ∧
    Embargo.pretty_print "P1M" = Except.ok "Up to 1 month(s) ago" := by
  refine ⟨by decide, ?_, ?_, by decide⟩
  · intro s hne hnm
    have hpm : Embargo.pattern_match s = none := by
      cases hcase : Embargo.pattern_match s with
      | none => rfl
      | some g =>
        obtain ⟨t, n, u⟩ := g
        obtain ⟨rest, hdecomp, ht, hnd, hdig, hu⟩ :=
          pattern_match_some_spec s t n u hcase
        exact absurd ⟨t, n.data, u, rest, hdecomp, ht, hnd, hdig, hu⟩ hnm
    unfold Embargo.pretty_print Embargo.embargo_as_dict
    rw [if_pos hne, hpm]
    rfl
  · intro s t ds u rest hdecomp ht hnd hdig hu
    have hne : ¬ s = "" := by
      intro hcon
      subst hcon
      have hempty : ("" : String).data = [] := rfl
      rw [hempty] at hdecomp
      exact List.noConfusion hdecomp
    have hpm := pattern_match_eq_some s t ds u rest hdecomp ht hnd hdig hu
    exact pretty_print_of_match s t (String.mk ds) u hne hpm ht hu

/-- C3 witness: the matching clause of the theorem applied to the concrete
decomposition of `"R12Y"`. -/
theorem C3_embargo_pretty_print_witness :
    Embargo.pretty_print "R12Y" = Except.ok
      ((if 'R' = 'R' then "Within the last" else "Up to") ++ " " ++
       String.mk ['1', '2'] ++ " " ++
       (if 'Y' = 'D' then "day(s)" else if 'Y' = 'M' then "month(s)"
        else "year(s)") ++ " ago") :=
  C3_embargo_pretty_print.2.2.1 "R12Y" 'R' ['1', '2'] 'Y' []
    (by decide) (Or.inl rfl) (by decide) (by decide) (Or.inr (Or.inr rfl))

/-- C4: holdings pretty-print of a 6-element list is the sentinel
`"No holdings present"` when all six values are empty, and otherwise
`"<first-triple> - <last-or-present>"` where each triple is the comma-join of
its non-empty parts (date verbatim, `Vol:`/`Issue:` prefixes, no dangling
commas) and `"present"` replaces an empty last triple — in particular on
`["2015-01-01", "1", "1", "", "", ""]` it yields
`"2015-01-01, Vol: 1, Issue: 1 - present"`. -/
theorem C4_holdings_pretty_print :
    (∀ a b c d e f : String,
      Holdings.pretty_print [a, b, c, d, e, f] =
        if a = "" ∧ b = "" ∧ c = "" ∧ d = "" ∧ e = "" ∧ f = "" then
          "No holdings present"
        else
          Holdings.tripleString a b c ++ " - " ++
            (if Holdings.tripleString d e f = "" then "present"
             else Holdings.tripleString d e f)) ∧
    Holdings.pretty_print ["2015-01-01", "1", "1", "", "", ""]
      = "2015-01-01, Vol: 1, Issue: 1 - present" := by
  refine ⟨?_, by decide⟩
  intro a b c d e f
  by_cases h : a = "" ∧ b = "" ∧ c = "" ∧ d = "" ∧ e = "" ∧ f = ""
  · obtain ⟨ha, hb, hc, hd, he, hf⟩ := h
    subst ha; subst hb; subst hc; subst hd; subst he; subst hf
    decide
  · rw [if_neg h]
    have hany : ([a, b, c, d, e, f].any (fun x => ¬ x = "")) = true := by
      by_contra hcon
      have hall : ∀ x ∈ [a, b, c, d, e, f], x = "" := by
        intro x hx
        by_contra hxne
        exact hcon (List.any_eq_true.mpr ⟨x, hx, by simpa using hxne⟩)
      exact h ⟨hall a (by simp), hall b (by simp), hall c (by simp),
        hall d (by simp), hall e (by simp), hall f (by simp)⟩
    unfold Holdings.pretty_print
    rw [if_pos hany]
    show Holdings.create_holdings_string [a, b, c] ++ " - " ++
      (if Holdings.create_holdings_string [d, e, f] = "" then "present"
       else Holdings.create_holdings_string [d, e, f]) = _
    rw [create_holdings_string_triple, create_holdings_string_triple]

/-- C5 counterexample: an invalid RP version does NOT always raise — when an
explicit field list is supplied, `_create_fields` is never called, so
`Kbart(rp=3, fields=['a'])` constructs successfully instead of raising
`InvalidRP`. -/
theorem C5_counterexample :
    Kbart.init [] none 3 ["a"]
      = Except.ok ⟨none, 3, [], ["a"], [("a", "")]⟩ ∧
    ¬ Kbart.init [] none 3 ["a"] = Except.error KbartError.InvalidRP :=
  ⟨by decide, by decide⟩

/-- C5 (amended): when no explicit field list is supplied, construction with
an RP version that is neither 1 nor 2 raises `InvalidRP`, and construction
with a valid RP version and a provider name that is not a key of the
provider-fields table raises `ProviderNotFound` (when both are invalid the
RP check runs first and `InvalidRP` wins; an explicit field list bypasses
both checks). Both are raised synchronously at construction. -/
theorem C5_schema_errors :
    (∀ (data : List String) (provider : Option String) (rp : Int),
      ¬ rp = 1 → ¬ rp = 2 →
      Kbart.init data provider rp [] = Except.error KbartError.InvalidRP) ∧
    (∀ (data : List String) (p : String) (rp : Int),
      (rp = 1 ∨ rp = 2) → alist_lookup PROVIDER_FIELDS p = none →
      Kbart.init data (some p) rp []
        = Except.error KbartError.ProviderNotFound) := by
  constructor
  · intro data provider rp h1 h2
    unfold Kbart.init create_fields
    simp [h1, h2, Bind.bind, Except.bind]
  · intro data p rp hrp hl
    unfold Kbart.init create_fields
    rcases hrp with h | h <;> subst h <;>
      simp [hl, Bind.bind, Except.bind, Pure.pure, Except.pure]

/-- C5 witness: the amended theorem at `rp = 5` and at the unknown provider
`"Myself"`. -/
theorem C5_schema_errors_witness :
    Kbart.init ["x"] none 5 [] = Except.error KbartError.InvalidRP ∧
    Kbart.init ["x"] (some "Myself") 2 []
      = Except.error KbartError.ProviderNotFound :=
  ⟨C5_schema_errors.1 ["x"] none 5 (by decide) (by decide),
   C5_schema_errors.2 ["x"] "Myself" 2 (Or.inr rfl) (by decide)⟩

/-- C6 counterexample: the round-trip fails for a field sequence with a
duplicate name — with fields `["a", "a"]` and values `["x", "y"]` the
ordered dict collapses the two bindings, so `get_fields()` returns `["y"]`,
not `["x", "y"]`. (It also fails for the empty field sequence, which is
falsy in Python and silently replaced by the full RP2 schema.) -/
theorem C6_counterexample :
    (Kbart.init ["x", "y"] none 2 ["a", "a"]).map (fun r => r.get_fields)
      = Except.ok ["y"] ∧
    ¬ (Kbart.init ["x", "y"] none 2 ["a", "a"]).map (fun r => r.get_fields)
      = Except.ok ["x", "y"] :=
  ⟨by decide, by decide⟩

/-- C6 (amended): for every NONEMPTY, DUPLICATE-FREE field sequence and
every values sequence of the same length, constructing a Record from those
values and reading back via `get_fields()` with no arguments yields exactly
those values in the same order. -/
theorem C6_round_trip (fields data : List String) (h1 : ¬ fields = [])
    (h2 : fields.Nodup) (h3 : data.length = fields.length) :
    (Kbart.init data none 2 fields).map (fun r => r.get_fields)
      = Except.ok data := by
  rw [Kbart.init_explicit data none 2 fields h1]
  show Except.ok (Kbart.get_fields _) = Except.ok data
  congr 1
  unfold Kbart.get_fields
  rw [if_pos rfl]
  show (odOfPairs (zip_longest fields data "")).map Prod.snd = data
  have hfst := zip_longest_map_fst fields data "" (le_of_eq h3)
  have hnd' : ((zip_longest fields data "").map Prod.fst).Nodup := by
    rw [hfst]; exact h2
  rw [odOfPairs_eq_self _ hnd', zip_longest_map_snd fields data "" (le_of_eq h3),
    h3]
  simp

/-- C6 witness: the amended theorem at fields `["a", "b"]` and values
`["x", "y"]`. -/
theorem C6_round_trip_witness :
    (Kbart.init ["x", "y"] none 2 ["a", "b"]).map (fun r => r.get_fields)
      = Except.ok ["x", "y"] :=
  C6_round_trip ["a", "b"] ["x", "y"] (by decide) (by decide) (by decide)

/-- C7: for a 6-element holdings list, length-of-coverage returns
`int(last_date) - int(first_date)` when both parse; falls back to
`this_year - int(first_date)` when the last date fails to parse but the
first does; and raises `IncompleteDateInformation` whenever the first date
fails to parse. -/
theorem C7_length_of_coverage (y : Int) (a b c d e f : String) :
    (∀ fa l : Int, Holdings.pyInt a = some fa → Holdings.pyInt d = some l →
      Holdings.length_of_coverage y [a, b, c, d, e, f] = Except.ok (l - fa)) ∧
    (∀ fa : Int, Holdings.pyInt d = none → Holdings.pyInt a = some fa →
      Holdings.length_of_coverage y [a, b, c, d, e, f]
        = Except.ok (y - fa)) ∧
    (Holdings.pyInt a = none →
      Holdings.length_of_coverage y [a, b, c, d, e, f]
        = Except.error KbartError.IncompleteDateInformation) := by
  refine ⟨?_, ?_, ?_⟩
  · intro fa l ha hd
    unfold Holdings.length_of_coverage
    simp only [List.getD_cons_zero, List.getD_cons_succ]
    rw [ha, hd]
  · intro fa hd ha
    unfold Holdings.length_of_coverage
    simp only [List.getD_cons_zero, List.getD_cons_succ]
    rw [ha, hd]
  · intro ha
    unfold Holdings.length_of_coverage
    simp only [List.getD_cons_zero, List.getD_cons_succ]
    cases hd : Holdings.pyInt d <;> simp [ha]

/-- C7 witness: the three clauses at concrete holdings lists (with the
current year taken as 2026). -/
theorem C7_length_of_coverage_witness :
    Holdings.length_of_coverage 2026 ["2015", "", "", "2020", "", ""]
      = Except.ok (2020 - 2015) ∧
    Holdings.length_of_coverage 2026 ["2015", "", "", "unknown", "", ""]
      = Except.ok (2026 - 2015) ∧
    Holdings.length_of_coverage 2026 ["", "", "", "2020", "", ""]
      = Except.error KbartError.IncompleteDateInformation :=
  ⟨(C7_length_of_coverage 2026 "2015" "" "" "2020" "" "").1 2015 2020
      (by decide) (by decide),
   (C7_length_of_coverage 2026 "2015" "" "" "unknown" "" "").2.1 2015
      (by decide) (by decide),
   (C7_length_of_coverage 2026 "" "" "" "2020" "" "").2.2 (by decide)⟩

/-- C8: the boolean check-format query returns true exactly when the string
matches the embargo pattern `(R|P)(\d+)(D|M|Y)` anchored at the start, and
false otherwise, never raising; in particular it is true on `"P1M"` and
false on `"Z32L"`. -/
theorem C8_check_embargo_format :
    (∀ s : String, Embargo.check_embargo_format s = true ↔
      Embargo.matchesEmbargoPattern s) ∧
    Embargo.check_embargo_format "P1M" = true ∧
    Embargo.check_embargo_format "Z32L" = false := by
  refine ⟨?_, by decide, by decide⟩
  intro s
  constructor
  · intro h
    unfold Embargo.check_embargo_format at h
    obtain ⟨g, hg⟩ := Option.isSome_iff_exists.mp h
    obtain ⟨t, n, u⟩ := g
    obtain ⟨rest, hdecomp, ht, hnd, hdig, hu⟩ :=
      pattern_match_some_spec s t n u hg
    exact ⟨t, n.data, u, rest, hdecomp, ht, hnd, hdig, hu⟩
  · rintro ⟨t, ds, u, rest, hdecomp, ht, hnd, hdig, hu⟩
    unfold Embargo.check_embargo_format
    rw [pattern_match_eq_some s t ds u rest hdecomp ht hnd hdig hu]
    rfl

/-- C9: holdings pretty-print does not modify its argument — at the heap
level, every location that existed before the call (in particular the
caller's 6-element list) holds exactly the same list afterwards; the
`Vol:`/`Issue:` prefixing mutates only the two fresh slices. -/
theorem C9_pretty_print_frame (store : List (List String)) (loc loc' : Nat)
    (h : loc' < store.length) :
    (Holdings.pretty_print_heap store loc).1.getD loc' []
      = store.getD loc' [] := by
  unfold Holdings.pretty_print_heap Holdings.create_holdings_string_heap
  by_cases hany : (((store.getD loc []).any (fun x => ¬ x = "")) = true)
  · rw [if_pos hany]
    show ((((store ++ _).set store.length _).set (store.length + 1) _) :
        List (List String)).getD loc' [] = store.getD loc' []
    rw [getD_set_ne _ _ _ _ _ (by omega), getD_set_ne _ _ _ _ _ (by omega),
      List.getD_append _ _ _ _ h]
  · rw [if_neg hany]

/-- C9 witness: the frame theorem at a one-list store. -/
theorem C9_pretty_print_frame_witness :
    (Holdings.pretty_print_heap [["2015", "1", "1", "", "", ""]] 0).1.getD 0 []
      = [["2015", "1", "1", "", "", ""]].getD 0 [] :=
  C9_pretty_print_frame [["2015", "1", "1", "", "", ""]] 0 0 (by decide)

/-- C10: for every valid embargo code (a type character, a nonempty digit
run, a unit character) and every suffix, pretty-print of the code followed
by the suffix does not raise and returns the same string as pretty-print of
the code alone — the pattern is anchored only at the start, so trailing
characters are ignored. -/
theorem C10_embargo_trailing_chars (t : Char) (ds : List Char) (u : Char) (s : String)
    (ht : t = 'R' ∨ t = 'P') (hds : ds ≠ [])
    (hdig : ∀ c ∈ ds, c.isDigit = true) (hu : u = 'D' ∨ u = 'M' ∨ u = 'Y') :
    Embargo.pretty_print (String.mk (t :: (ds ++ [u])) ++ s)
      = Embargo.pretty_print (String.mk (t :: (ds ++ [u]))) ∧
    (Embargo.pretty_print (String.mk (t :: (ds ++ [u])) ++ s)).isOk
      = true := by
  have hdata1 : (String.mk (t :: (ds ++ [u])) ++ s).data
      = t :: (ds ++ u :: s.data) := by
    rw [String.data_append]
    show (t :: (ds ++ [u])) ++ s.data = t :: (ds ++ u :: s.data)
    simp
  have hdata2 : (String.mk (t :: (ds ++ [u]))).data = t :: (ds ++ u :: []) := by
    show t :: (ds ++ [u]) = t :: (ds ++ u :: [])
    rfl
  have hne1 : ¬ (String.mk (t :: (ds ++ [u])) ++ s) = "" := by
    intro hcon
    have hd := congrArg String.data hcon
    rw [hdata1] at hd
    exact List.noConfusion hd
  have hne2 : ¬ String.mk (t :: (ds ++ [u])) = "" := by
    intro hcon
    have hd := congrArg String.data hcon
    rw [hdata2] at hd
    exact List.noConfusion hd
  have hm1 := pattern_match_eq_some _ t ds u s.data hdata1 ht hds hdig hu
  have hm2 := pattern_match_eq_some _ t ds u [] hdata2 ht hds hdig hu
  have hp1 := pretty_print_of_match _ t (String.mk ds) u hne1 hm1 ht hu
  have hp2 := pretty_print_of_match _ t (String.mk ds) u hne2 hm2 ht hu
  constructor
  · rw [hp1, hp2]
  · rw [hp1]
    rfl

/-- C10 witness: the theorem at the code `"P1M"` and the suffix `"xyz"`. -/
theorem C10_embargo_trailing_chars_witness :
    Embargo.pretty_print (String.mk ('P' :: (['1'] ++ ['M'])) ++ "xyz")
      = Embargo.pretty_print (String.mk ('P' :: (['1'] ++ ['M']))) ∧
    (Embargo.pretty_print (String.mk ('P' :: (['1'] ++ ['M'])) ++ "xyz")).isOk
      = true :=
  C10_embargo_trailing_chars 'P' ['1'] 'M' "xyz" (Or.inr rfl) (by decide) (by decide)
    (Or.inr (Or.inl rfl))

end Pykbart
